import Mathlib

/-
Shallow embedding of the rusty_dragon decoders (src/wad.rs, src/rman.rs,
src/macros.rs) over byte buffers modelled as lists of naturals.

The source program has no typed error channel: every failure is a process
abort (an `unwrap` on a nom parser result, an out-of-bounds slice index, or
an explicit panic).  The embedding surfaces each such abort as an
`Except.error` carrying the abort's cause, and otherwise mirrors the
source's reads byte for byte.  Positions are modelled as unbounded
naturals; the source's u32/usize position arithmetic does not overflow for
inputs below 4 GiB, which the modelled arithmetic matches.
-/

set_option maxRecDepth 100000

/-- A byte buffer: each entry is one byte (a natural below 256 in any
well-formed input). -/
abbrev Bytes := List Nat

/-- The causes of a decode abort in the source: `eof` models both a nom
parser failing on a too-short input and an out-of-bounds slice index;
`badTag` models a nom `tag` mismatch; `invalidMajor` models the explicit
panic on an unknown WAD major version; `invalidCompression` models the
`unwrap` on `CompressionType::from_u8` returning `None`; `missingName`
models the `unwrap` on a vtable map lookup; `unreachableHit` models the
`unreachable!()` arm of the WAD content layout match. -/
inductive PanicCause where
  | eof
  | badTag
  | invalidMajor
  | invalidCompression
  | missingName
  | unreachableHit
  deriving Repr, DecidableEq

/-- Little-endian value of a byte list (least significant byte first). -/
def leNat : List Nat → Nat
  | [] => 0
  | b :: bs => b + 256 * leNat bs

/-- A little-endian read of `width` bytes at `pos`: fails when
`pos + width` exceeds the buffer length, as the source's nom parsers do on
a truncated slice. -/
def readLe (input : Bytes) (pos width : Nat) : Except PanicCause Nat :=
  if pos + width ≤ input.length then
    Except.ok (leNat ((input.drop pos).take width))
  else
    Except.error PanicCause.eof

/-- `le_u8` of the source. -/
def readU8 (input : Bytes) (pos : Nat) : Except PanicCause Nat :=
  readLe input pos 1

/-- `le_u16` of the source. -/
def readU16 (input : Bytes) (pos : Nat) : Except PanicCause Nat :=
  readLe input pos 2

/-- `le_u32` of the source. -/
def readU32 (input : Bytes) (pos : Nat) : Except PanicCause Nat :=
  readLe input pos 4

/-- `le_u64` of the source. -/
def readU64 (input : Bytes) (pos : Nat) : Except PanicCause Nat :=
  readLe input pos 8

/-- `le_i32` of the source: four little-endian bytes interpreted as a
two's-complement signed 32-bit integer. -/
def readI32 (input : Bytes) (pos : Nat) : Except PanicCause Int :=
  (readLe input pos 4).map (fun n => if n < 2 ^ 31 then (n : Int) else (n : Int) - 2 ^ 32)

/-- A Rust range slice `input[lo..hi]`: fails (the source panics) when the
range is not contained in the buffer. -/
def sliceBytes (input : Bytes) (lo hi : Nat) : Except PanicCause Bytes :=
  if lo ≤ hi ∧ hi ≤ input.length then
    Except.ok ((input.drop lo).take (hi - lo))
  else
    Except.error PanicCause.eof

/-- nom's `tag`: succeeds exactly when the bytes at `pos` start with `t`
(a too-short buffer is also a tag error in nom's complete parsers). -/
def readTag (input : Bytes) (pos : Nat) (t : Bytes) : Except PanicCause Bytes :=
  if (input.drop pos).take t.length = t then
    Except.ok t
  else
    Except.error PanicCause.badTag

/-! ## UTF-8 lossy decoding (`String::from_utf8_lossy`)

Rust replaces each maximal subpart of an ill-formed subsequence with one
U+FFFD replacement character, following the UTF-8 byte-class table:
two-byte leads are `C2..DF`, three-byte leads `E0..EF` (with a restricted
second byte for `E0` and `ED`), four-byte leads `F0..F4` (with a
restricted second byte for `F0` and `F4`); continuation bytes are
`80..BF`. -/

/-- The U+FFFD replacement character. -/
def repChar : Char := Char.ofNat 0xFFFD

/-- Is `b` a UTF-8 continuation byte (`0x80..0xBF`)? -/
def isCont (b : Nat) : Bool := decide (0x80 ≤ b) && decide (b ≤ 0xBF)

/-- Valid second byte of a three-byte sequence with lead `b`. -/
def snd3 (b c : Nat) : Bool :=
  if b = 0xE0 then decide (0xA0 ≤ c) && decide (c ≤ 0xBF)
  else if b = 0xED then decide (0x80 ≤ c) && decide (c ≤ 0x9F)
  else isCont c

/-- Valid second byte of a four-byte sequence with lead `b`. -/
def snd4 (b c : Nat) : Bool :=
  if b = 0xF0 then decide (0x90 ≤ c) && decide (c ≤ 0xBF)
  else if b = 0xF4 then decide (0x80 ≤ c) && decide (c ≤ 0x8F)
  else isCont c

/-- The character list produced by Rust's lossy UTF-8 decoding: well-formed
sequences decode to their scalar value, every maximal subpart of an
ill-formed sequence becomes one `repChar`. -/
def utf8Lossy : List Nat → List Char
  | [] => []
  | b :: rest =>
    if b < 0x80 then Char.ofNat b :: utf8Lossy rest
    else if b < 0xC2 then repChar :: utf8Lossy rest
    else if b < 0xE0 then
      match rest with
      | [] => [repChar]
      | c1 :: r =>
        if isCont c1 then Char.ofNat ((b - 0xC0) * 64 + (c1 - 0x80)) :: utf8Lossy r
        else repChar :: utf8Lossy (c1 :: r)
    else if b < 0xF0 then
      match rest with
      | [] => [repChar]
      | c1 :: r =>
        if snd3 b c1 then
          match r with
          | [] => [repChar]
          | c2 :: r2 =>
            if isCont c2 then
              Char.ofNat ((b - 0xE0) * 4096 + (c1 - 0x80) * 64 + (c2 - 0x80)) :: utf8Lossy r2
            else repChar :: utf8Lossy (c2 :: r2)
        else repChar :: utf8Lossy (c1 :: r)
    else if b < 0xF5 then
      match rest with
      | [] => [repChar]
      | c1 :: r =>
        if snd4 b c1 then
          match r with
          | [] => [repChar]
          | c2 :: r2 =>
            if isCont c2 then
              match r2 with
              | [] => [repChar]
              | c3 :: r3 =>
                if isCont c3 then
                  Char.ofNat
                    ((b - 0xF0) * 262144 + (c1 - 0x80) * 4096 + (c2 - 0x80) * 64 + (c3 - 0x80)) ::
                      utf8Lossy r3
                else repChar :: utf8Lossy (c3 :: r3)
            else repChar :: utf8Lossy (c2 :: r2)
        else repChar :: utf8Lossy (c1 :: r)
    else repChar :: utf8Lossy rest

/-- `String::from_utf8_lossy` of the source. -/
def from_utf8_lossy (bs : Bytes) : String := String.mk (utf8Lossy bs)

/-- Well-formedness of a byte list as UTF-8, by the standard byte-class
table (independent of `utf8Lossy`). -/
def utf8Valid : List Nat → Bool
  | [] => true
  | b :: rest =>
    if b < 0x80 then utf8Valid rest
    else if b < 0xC2 then false
    else if b < 0xE0 then
      match rest with
      | [] => false
      | c1 :: r => if isCont c1 then utf8Valid r else false
    else if b < 0xF0 then
      match rest with
      | [] => false
      | c1 :: r =>
        if snd3 b c1 then
          match r with
          | [] => false
          | c2 :: r2 => if isCont c2 then utf8Valid r2 else false
        else false
    else if b < 0xF5 then
      match rest with
      | [] => false
      | c1 :: r =>
        if snd4 b c1 then
          match r with
          | [] => false
          | c2 :: r2 =>
            if isCont c2 then
              match r2 with
              | [] => false
              | c3 :: r3 => if isCont c3 then utf8Valid r3 else false
            else false
        else false
    else false

namespace Wad

/-- `CompressionType` of src/wad.rs. -/
inductive CompressionType where
  | NONE
  | GZIP
  | REFERENCE
  | ZSTD
  deriving Repr, DecidableEq

/-- `CompressionType::from_u8` (derived `FromPrimitive`): the discriminant
values 0..3; any other value yields `none`. -/
def CompressionType.from_u8 : Nat → Option CompressionType
  | 0 => some CompressionType.NONE
  | 1 => some CompressionType.GZIP
  | 2 => some CompressionType.REFERENCE
  | 3 => some CompressionType.ZSTD
  | _ => none

/-- `HeaderVersion` of src/wad.rs. -/
inductive HeaderVersion where
  | V1 (entry_offset entry_size : Nat)
  | V2 (ecdsa : Bytes) (file_checksum entry_offset entry_size : Nat)
  | V3 (ecdsa : Bytes) (file_checksum : Nat)
  deriving Repr, DecidableEq

/-- `Header` of src/wad.rs. -/
structure Header where
  major : Nat
  minor : Nat
  file_count : Nat
  version : HeaderVersion
  deriving Repr, DecidableEq

/-- `ContentVersion` of src/wad.rs. -/
inductive ContentVersion where
  | V1
  | V2 (is_duplicate : Bool) (sha256 : Nat)
  deriving Repr, DecidableEq

/-- `Content` of src/wad.rs. -/
structure Content where
  hash : Nat
  data_offset : Nat
  compressed_size : Nat
  uncompressed_size : Nat
  compression_type : CompressionType
  version : ContentVersion
  deriving Repr, DecidableEq

/-- `File` of src/wad.rs. -/
structure File where
  header : Header
  content : List Content
  deriving Repr, DecidableEq

/-- `fn header` of src/wad.rs.  The magic "RW" is the bytes 82, 87; major
and minor are the bytes at 2 and 3.  For major 2 the source reads the
ecdsa length with `parse_single!(le_u8, input)`, i.e. from the start of
the whole buffer (position 0), and slices `input[5..5+len]`; the fixed
fields then start at `5 + 83 = 88`.  For major 3 the ecdsa region is
`input[4..260]` and the fixed fields start at 260. -/
def header (input : Bytes) : Except PanicCause Header := do
  let _ ← readTag input 0 [82, 87]
  let major ← readU8 input 2
  let minor ← readU8 input 3
  if major = 1 then do
    let entry_offset ← readU16 input 4
    let entry_size ← readU16 input 6
    let file_count ← readU32 input 8
    Except.ok { major, minor, file_count, version := HeaderVersion.V1 entry_offset entry_size }
  else if major = 2 then do
    let ecdsa_length ← readU8 input 0
    let ecdsa ← sliceBytes input 5 (5 + ecdsa_length)
    let file_checksum ← readU64 input 88
    let entry_offset ← readU16 input 96
    let entry_size ← readU16 input 98
    let file_count ← readU32 input 100
    Except.ok
      { major, minor, file_count,
        version := HeaderVersion.V2 ecdsa file_checksum entry_offset entry_size }
  else if major = 3 then do
    let ecdsa ← sliceBytes input 4 (4 + 256)
    let file_checksum ← readU64 input (4 + 256)
    let file_count ← readU32 input (4 + 256 + 8)
    Except.ok { major, minor, file_count, version := HeaderVersion.V3 ecdsa file_checksum }
  else
    Except.error PanicCause.invalidMajor

/-- The `(data_start, entry_size)` match at the top of `fn content` in
src/wad.rs, written with the source's literal sums; the wildcard arm is
`unreachable!()`. -/
def contentLayout : Nat → Option (Nat × Nat)
  | 1 => some (4 + 2 + 2 + 4, 24)
  | 2 => some (4 + 1 + 83 + 8 + 2 + 2 + 4, 32)
  | 3 => some (4 + 256 + 8 + 4, 32)
  | _ => none

/-- One iteration of the content loop in `fn content`: the fixed
sub-offsets 0/8/12/16 for hash, data_offset, compressed_size and
uncompressed_size; the compression value is a `le_u32` at sub-offset 20
truncated `as u8` for major 1 and a `le_u8` at sub-offset 20 otherwise;
for major ≥ 2, is_duplicate, a skipped u16 and sha256 follow at
sub-offsets 21, 22 and 24. -/
def contentEntry (input : Bytes) (major entry_offset : Nat) : Except PanicCause Content := do
  let hash ← readU64 input entry_offset
  let data_offset ← readU32 input (entry_offset + 8)
  let compressed_size ← readU32 input (entry_offset + 12)
  let uncompressed_size ← readU32 input (entry_offset + 16)
  let compression_value ←
    if major = 1 then do
      let v ← readU32 input (entry_offset + 20)
      Except.ok (v % 256)
    else
      readU8 input (entry_offset + 20)
  let compression_type ←
    match CompressionType.from_u8 compression_value with
    | some c => Except.ok c
    | none => Except.error PanicCause.invalidCompression
  if major = 1 then
    Except.ok
      { hash, data_offset, compressed_size, uncompressed_size, compression_type,
        version := ContentVersion.V1 }
  else do
    let duplicate ← readU8 input (entry_offset + 21)
    let _pad ← readU16 input (entry_offset + 22)
    let sha256 ← readU64 input (entry_offset + 24)
    Except.ok
      { hash, data_offset, compressed_size, uncompressed_size, compression_type,
        version := ContentVersion.V2 (decide (duplicate > 0)) sha256 }

/-- The `for offset_multiplier in 0..file_count` loop of `fn content`,
with `i` the next index and the second argument the number of iterations
left; entry `i` is decoded at `data_start + i * entry_size`. -/
def contentLoop (input : Bytes) (major data_start entry_size : Nat) :
    Nat → Nat → Except PanicCause (List Content)
  | _, 0 => Except.ok []
  | i, r + 1 => do
    let e ← contentEntry input major (data_start + i * entry_size)
    let rest ← contentLoop input major data_start entry_size (i + 1) r
    Except.ok (e :: rest)

/-- `fn content` of src/wad.rs. -/
def content (input : Bytes) (major file_count : Nat) : Except PanicCause (List Content) :=
  match contentLayout major with
  | some (data_start, entry_size) => contentLoop input major data_start entry_size 0 file_count
  | none => Except.error PanicCause.unreachableHit

/-- `pub fn parse` of src/wad.rs. -/
def parse (input : Bytes) : Except PanicCause File := do
  let h ← header input
  let c ← content input h.major h.file_count
  Except.ok { header := h, content := c }

end Wad

namespace Rman

/-- `OffsetMap` of src/rman.rs. -/
structure OffsetMap where
  bundle_offset : Nat
  language_offset : Nat
  file_offset : Nat
  folder_offset : Nat
  deriving Repr, DecidableEq

/-- `Language` of src/rman.rs. -/
structure Language where
  id : Nat
  name : String
  deriving Repr, DecidableEq

/-- `Directory` of src/rman.rs. -/
structure Directory where
  id : Nat
  parent_id : Nat
  name : String
  deriving Repr, DecidableEq

/-- `FileEntry` of src/rman.rs. -/
structure FileEntry where
  id : Nat
  name : String
  symlink : String
  directory_id : Nat
  size : Nat
  language : Nat
  chunk_ids : List Nat
  deriving Repr, DecidableEq

/-- `fn offset_map` of src/rman.rs: `header_offset` is a u32 at position 0
of the decompressed buffer; five consecutive u32 reads start at
`header_offset`, the first discarded; each section start adds the raw
field offset and the constant 4, 8, 12 or 16 to `header_offset`. -/
def offset_map (input : Bytes) : Except PanicCause OffsetMap := do
  let header_offset ← readU32 input 0
  let _first ← readU32 input header_offset
  let bundle_offset ← readU32 input (header_offset + 4)
  let language_offset ← readU32 input (header_offset + 8)
  let file_offset ← readU32 input (header_offset + 12)
  let folder_offset ← readU32 input (header_offset + 16)
  Except.ok
    { bundle_offset := header_offset + bundle_offset + 4,
      language_offset := header_offset + language_offset + 8,
      file_offset := header_offset + file_offset + 12,
      folder_offset := header_offset + folder_offset + 16 }

/-- The name-keyed field-offset map built by `fn parse_vtable` (a
`HashMap<String, u16>` in the source, here an association list in
insertion order). -/
abbrev VTable := List (String × Nat)

/-- A vtable map lookup followed by the source's `unwrap` on the
resulting `Option`. -/
def vtGet (m : VTable) (key : String) : Except PanicCause Nat :=
  match m.lookup key with
  | some v => Except.ok v
  | none => Except.error PanicCause.missingName

/-- The `for (index, element) in entries.iter().enumerate()` loop of
`fn parse_vtable`: field `index` is a u16 at `vpos + 2 * index` inside
the buffer, `vpos` being the vtable's absolute position. -/
def vtableLoop (input : Bytes) (vpos : Nat) : List String → Nat → Except PanicCause VTable
  | [], _ => Except.ok []
  | e :: es, index => do
    let value ← readU16 input (vpos + 2 * index)
    let rest ← vtableLoop input vpos es (index + 1)
    Except.ok ((e, value) :: rest)

/-- `fn parse_vtable` of src/rman.rs: a signed 32-bit `soffset` is read at
`table_offset` and the source slices the buffer at
`(table_offset as i32 - soffset) as usize`; a negative difference wraps
to a huge index, so the slice (and hence the decode) aborts, which the
embedding models by failing when the difference is negative or beyond
the buffer.  Both casts are value-preserving for positions below 2^31. -/
def parse_vtable (input : Bytes) (table_offset : Nat) (entries : List String) :
    Except PanicCause VTable := do
  let soffset ← readI32 input table_offset
  let vpos : Int := (table_offset : Int) - soffset
  if 0 ≤ vpos ∧ vpos.toNat ≤ input.length then
    vtableLoop input vpos.toNat entries 0
  else
    Except.error PanicCause.eof

/-- The `for i in 0..count` loop of `fn parse_vector`, with `i` the next
index and the second argument the number of iterations left: element `i`'s
relative offset is a u32 at `table_offset + (4 + 4 * i)`, its table
position is `4 + 4 * i + offset + table_offset`, and the element decoder
`f` receives that position together with the resolved vtable. -/
def vectorLoop {α : Type} (input : Bytes) (table_offset : Nat) (parts : List String)
    (f : Nat → VTable → Except PanicCause α) : Nat → Nat → Except PanicCause (List α)
  | _, 0 => Except.ok []
  | i, r + 1 => do
    let offset ← readU32 input (table_offset + (4 + 4 * i))
    let entry_data_offset := 4 + 4 * i + offset + table_offset
    let entry_offsets ← parse_vtable input entry_data_offset parts
    let x ← f entry_data_offset entry_offsets
    let rest ← vectorLoop input table_offset parts f (i + 1) r
    Except.ok (x :: rest)

/-- `fn parse_vector` of src/rman.rs, with the capturing `FnMut` collector
of the source turned into an element decoder returning one value; the
result list preserves index order. -/
def parse_vector {α : Type} (input : Bytes) (table_offset : Nat) (parts : List String)
    (f : Nat → VTable → Except PanicCause α) : Except PanicCause (List α) := do
  let count ← readU32 input table_offset
  vectorLoop input table_offset parts f 0 count

/-- The `for i in 0..count` loop of `fn parse_long_vector`: element `i` is
an inline u64 at `start_offset + (4 + 8 * i)`. -/
def longLoop (input : Bytes) (start_offset : Nat) : Nat → Nat → Except PanicCause (List Nat)
  | _, 0 => Except.ok []
  | i, r + 1 => do
    let value ← readU64 input (start_offset + (4 + 8 * i))
    let rest ← longLoop input start_offset (i + 1) r
    Except.ok (value :: rest)

/-- `fn parse_long_vector` of src/rman.rs. -/
def parse_long_vector (input : Bytes) (start_offset : Nat) : Except PanicCause (List Nat) := do
  let count ← readU32 input start_offset
  longLoop input start_offset 0 count

/-- The indirect length-prefixed string read that the source repeats
inside each element closure: at `base` (a resolved field position) a u32
relative offset, at `base + offset` a u32 length, then `length` bytes
decoded lossily. -/
def indirect_string (input : Bytes) (base : Nat) : Except PanicCause String := do
  let position ← readU32 input base
  let data_offset := base + position
  let length ← readU32 input data_offset
  let bytes ← sliceBytes input (data_offset + 4) (data_offset + 4 + length)
  Except.ok (from_utf8_lossy bytes)

/-- The `parse_single_language` closure of `fn languages`. -/
def parse_single_language (input : Bytes) (start_offset : Nat) (entry_offsets : VTable) :
    Except PanicCause Language := do
  let name_offset ← vtGet entry_offsets ("name_offset")
  let name ← indirect_string input (start_offset + name_offset)
  let language_id_offset ← vtGet entry_offsets ("language_id")
  let language_id ← readU8 input (start_offset + language_id_offset)
  Except.ok { id := language_id, name }

/-- `fn languages` of src/rman.rs. -/
def languages (input : Bytes) (languages_start : Nat) : Except PanicCause (List Language) :=
  parse_vector input languages_start ["name_offset", "unknown1", "language_id"]
    (parse_single_language input)

/-- The `parse_single_directory` closure of `fn directories`: the
`directory_id` and `parent_id` reads are guarded by `offset > 0`, with 0
substituted when the vtable offset is 0. -/
def parse_single_directory (input : Bytes) (start_offset : Nat) (entry_offsets : VTable) :
    Except PanicCause Directory := do
  let name_offset ← vtGet entry_offsets ("name_offset")
  let name ← indirect_string input (start_offset + name_offset)
  let directory_id_offset ← vtGet entry_offsets ("directory_id")
  let directory_id ←
    if directory_id_offset > 0 then readU64 input (start_offset + directory_id_offset)
    else Except.ok 0
  let parent_id_offset ← vtGet entry_offsets ("parent_id")
  let parent_id ←
    if parent_id_offset > 0 then readU64 input (start_offset + parent_id_offset)
    else Except.ok 0
  Except.ok { id := directory_id, parent_id, name }

/-- `fn directories` of src/rman.rs. -/
def directories (input : Bytes) (directories_start : Nat) : Except PanicCause (List Directory) :=
  parse_vector input directories_start
    ["unknown1", "unknown2", "directory_id", "parent_id", "name_offset"]
    (parse_single_directory input)

/-- The field-name list of `fn files`. -/
def files_parts : List String :=
  ["unknown1", "chunks", "file_id", "directory_id", "file_size", "name_offset",
   "language_mask", "unknown2", "unknown3", "unknown4", "unknown5", "symlink_offset",
   "unknown6", "unknown7", "unknown8"]

/-- The `parse_single_file` closure of `fn files`: unlike the directory
decoder, the `directory_id` read is unconditional — the u64 is read at
`start_offset + directory_id_offset` even when the vtable offset is 0. -/
def parse_single_file (input : Bytes) (start_offset : Nat) (entry_offsets : VTable) :
    Except PanicCause FileEntry := do
  let name_offset ← vtGet entry_offsets ("name_offset")
  let name ← indirect_string input (start_offset + name_offset)
  let symlink_offset ← vtGet entry_offsets ("symlink_offset")
  let symlink ← indirect_string input (start_offset + symlink_offset)
  let file_id_offset ← vtGet entry_offsets ("file_id")
  let file_id ← readU64 input (start_offset + file_id_offset)
  let directory_id_offset ← vtGet entry_offsets ("directory_id")
  let directory_id ← readU64 input (start_offset + directory_id_offset)
  let file_size_id_offset ← vtGet entry_offsets ("file_size")
  let file_size ← readU32 input (start_offset + file_size_id_offset)
  let language_mask_offset ← vtGet entry_offsets ("language_mask")
  let language_mask ← readU32 input (start_offset + language_mask_offset)
  let chunks_offset ← vtGet entry_offsets ("chunks")
  let chunks ← parse_long_vector input (start_offset + chunks_offset)
  Except.ok
    { id := file_id, name, symlink, directory_id, language := language_mask,
      size := file_size, chunk_ids := chunks }

/-- `fn files` of src/rman.rs. -/
def files (input : Bytes) (files_start : Nat) : Except PanicCause (List FileEntry) :=
  parse_vector input files_start files_parts (parse_single_file input)

end Rman


/-! ## Concrete inputs used by the verification -/

/-- The concrete major-2 WAD used for C1: the header's `entry_offset`
field is 4660 and `entry_size` is 24 (both ignored by the content
decoder), `file_count` is the u32 `1` at bytes 100..104, and the single
content record occupies bytes 104..136 with hash bytes 1..8, data offset
9, compressed size 10, uncompressed size 11, compression byte 3,
duplicate flag 1 and sha 12. -/
def c1buf : Bytes :=
  [82, 87, 2, 0] ++ List.replicate 84 0 ++ List.replicate 8 0 ++ [52, 18] ++ [24, 0] ++
    [1, 0, 0, 0] ++ [1, 2, 3, 4, 5, 6, 7, 8] ++ [9, 0, 0, 0] ++ [10, 0, 0, 0] ++ [11, 0, 0, 0] ++
    [3] ++ [1] ++ [0, 0] ++ [12, 0, 0, 0, 0, 0, 0, 0]

/-- The single content record of `c1buf`. -/
def c1rec : Wad.Content :=
  { hash := 0x0807060504030201, data_offset := 9, compressed_size := 10,
    uncompressed_size := 11, compression_type := Wad.CompressionType.ZSTD,
    version := Wad.ContentVersion.V2 true 12 }

/-- A concrete major-1 WAD: one 24-byte record at byte 12, whose
compression field is the u32 `3` at sub-offset 20 (bytes 32..36). -/
def c4buf1 : Bytes :=
  [82, 87, 1, 0] ++ [0, 1] ++ [24, 0] ++ [1, 0, 0, 0] ++
    [1, 1, 1, 1, 1, 1, 1, 1] ++ [2, 0, 0, 0] ++ [3, 0, 0, 0] ++ [4, 0, 0, 0] ++ [3, 0, 0, 0]

/-- A concrete major-3 WAD: one 32-byte record at byte 272 whose
compression byte at sub-offset 20 (byte 292) is the out-of-range 4. -/
def c4buf3 : Bytes :=
  [82, 87, 3, 0] ++ List.replicate 256 0 ++ List.replicate 8 0 ++ [1, 0, 0, 0] ++
    (List.replicate 20 0 ++ [4] ++ [1] ++ [0, 0] ++ [9, 0, 0, 0, 0, 0, 0, 0])

/-- `c4buf3` with the compression byte 3 instead of 4. -/
def c4buf3good : Bytes :=
  [82, 87, 3, 0] ++ List.replicate 256 0 ++ List.replicate 8 0 ++ [1, 0, 0, 0] ++
    (List.replicate 20 0 ++ [3] ++ [1] ++ [0, 0] ++ [9, 0, 0, 0, 0, 0, 0, 0])

/-- A concrete major-2 WAD header region whose would-be ECDSA length byte
at offset 4 is 3, with the 83-byte padded region filled with the value 7
and the fixed fields at 88..104 zeroed. -/
def c10buf : Bytes :=
  [82, 87, 2, 0] ++ [3] ++ List.replicate 83 7 ++ List.replicate 8 0 ++ [0, 0] ++ [0, 0] ++
    [0, 0, 0, 0]

/-- `c10buf` with the byte at offset 4 changed to 200. -/
def c10buf2 : Bytes :=
  [82, 87, 2, 0] ++ [200] ++ List.replicate 83 7 ++ List.replicate 8 0 ++ [0, 0] ++ [0, 0] ++
    [0, 0, 0, 0]

/-- A concrete RMAN file section: vector count 1 at byte 0, element
offset-table entry 36 at byte 4 (so the element table sits at byte 40), a
15-entry vtable at bytes 8..38 whose `directory_id` slot is 0, the table's
soffset 32 at bytes 40..44, and field data with file id 7, size 5,
language mask 1, name "A", empty symlink and an empty chunk list. -/
def c2buf : Bytes :=
  [1, 0, 0, 0] ++ [36, 0, 0, 0] ++
    [0, 0, 48, 0, 8, 0, 0, 0, 16, 0, 24, 0, 20, 0, 0, 0, 0, 0, 0, 0, 0, 0, 28, 0, 0, 0, 0, 0,
     0, 0] ++
    [0, 0] ++ [32, 0, 0, 0] ++ [0, 0, 0, 0] ++ [7, 0, 0, 0, 0, 0, 0, 0] ++ [5, 0, 0, 0] ++
    [1, 0, 0, 0] ++ [12, 0, 0, 0] ++ [16, 0, 0, 0] ++ [0, 0, 0, 0] ++ [1, 0, 0, 0] ++ [65] ++
    [0, 0, 0] ++ [0, 0, 0, 0] ++ [0, 0, 0, 0]

/-- The vtable of the single file element of `c2buf` (the `directory_id`
slot is 0, i.e. the field is absent). -/
def c2vt : Rman.VTable :=
  [("unknown1", 0), ("chunks", 48), ("file_id", 8), ("directory_id", 0), ("file_size", 16),
   ("name_offset", 24), ("language_mask", 20), ("unknown2", 0), ("unknown3", 0),
   ("unknown4", 0), ("unknown5", 0), ("symlink_offset", 28), ("unknown6", 0),
   ("unknown7", 0), ("unknown8", 0)]

/-- The file entry the source decodes from `c2buf`: its `directory_id` is
32, the little-endian u64 read at the table position itself (the bytes of
the soffset), not the documented default 0. -/
def fEnt : Rman.FileEntry :=
  { id := 7, name := "A", symlink := "", directory_id := 32, size := 5, language := 1,
    chunk_ids := [] }

/-- A concrete RMAN directory section: one element at byte 20 whose vtable
(at bytes 8..18) marks both `directory_id` and `parent_id` absent
(offset 0) and resolves the name "A". -/
def dirbuf : Bytes :=
  [1, 0, 0, 0] ++ [16, 0, 0, 0] ++ [0, 0, 0, 0, 0, 0, 0, 0, 4, 0] ++ [0, 0] ++ [12, 0, 0, 0] ++
    [8, 0, 0, 0] ++ [0, 0, 0, 0] ++ [1, 0, 0, 0] ++ [65]

/-- The vtable of the single directory element of `dirbuf`. -/
def dirVt : Rman.VTable :=
  [("unknown1", 0), ("unknown2", 0), ("directory_id", 0), ("parent_id", 0), ("name_offset", 4)]

/-- A concrete long vector: count 2 and the inline u64 values 100, 200. -/
def c7long : Bytes :=
  [2, 0, 0, 0] ++ [100, 0, 0, 0, 0, 0, 0, 0] ++ [200, 0, 0, 0, 0, 0, 0, 0]

/-- A concrete decompressed RMAN body prefix: `header_offset` 4, then five
u32 fields 99, 10, 20, 30, 40 starting at byte 4. -/
def c8buf : Bytes :=
  [4, 0, 0, 0] ++ [99, 0, 0, 0] ++ [10, 0, 0, 0] ++ [20, 0, 0, 0] ++ [30, 0, 0, 0] ++
    [40, 0, 0, 0]

/-- A concrete indirect-string field at base 0: relative offset 4, length
1, and the single byte 255, which is not valid UTF-8. -/
def c9buf : Bytes := [4, 0, 0, 0] ++ [1, 0, 0, 0] ++ [255]

/-! ## Helper lemmas -/

/-- Success of a monadic bind over `Except` splits into successes of both
stages. -/
theorem exceptBind_ok {α β : Type} {e : Except PanicCause α}
    {f : α → Except PanicCause β} {b : β} :
    e >>= f = Except.ok b ↔ ∃ a, e = Except.ok a ∧ f a = Except.ok b := by
  cases e with
  | error c => simp [Bind.bind, Except.bind]
  | ok a => simp [Bind.bind, Except.bind]

/-- Every discriminant value of 4 or more is outside the
`CompressionType` enum. -/
theorem from_u8_none_of_ge {n : Nat} (h : 4 ≤ n) :
    Wad.CompressionType.from_u8 n = none := by
  obtain ⟨m, rfl⟩ := Nat.exists_eq_add_of_le h
  rw [Nat.add_comm]
  rfl

/-- Characterization of the WAD content loop: on success it yields one
record per remaining iteration, record `j` decoded at
`data_start + (i + j) * entry_size`. -/
theorem contentLoop_spec (input : Bytes) (major ds es : Nat) :
    ∀ (r i : Nat) (xs : List Wad.Content),
      Wad.contentLoop input major ds es i r = Except.ok xs →
      xs.length = r ∧ ∀ j, j < r → ∃ c, xs.get? j = some c ∧
        Wad.contentEntry input major (ds + (i + j) * es) = Except.ok c := by
  intro r
  induction r with
  | zero =>
    intro i xs h
    simp only [Wad.contentLoop] at h
    cases h
    simp
  | succ n ih =>
    intro i xs h
    simp only [Wad.contentLoop, exceptBind_ok, Except.ok.injEq] at h
    obtain ⟨e, he, rest, hrest, hxs⟩ := h
    subst hxs
    obtain ⟨hlen, helts⟩ := ih (i + 1) rest hrest
    refine ⟨by simp [hlen], ?_⟩
    intro j hj
    cases j with
    | zero =>
      refine ⟨e, by simp, ?_⟩
      simpa using he
    | succ k =>
      obtain ⟨c, hc, hread⟩ := helts k (by omega)
      refine ⟨c, by simpa using hc, ?_⟩
      have : i + 1 + k = i + (k + 1) := by omega
      rwa [this] at hread

/-! ## Claim C1 -/

/-- C1 counterexample: the content stride for major 2 starts at byte 104,
not at byte 100 as claimed (and at 272, not 268, for major 3).  On the
concrete buffer the decoded hash is the little-endian value of the bytes
planted at 104..112, not of the bytes at 100..108. -/
theorem c1_counterexample :
    Wad.contentLayout 2 = some (104, 32) ∧
    Wad.contentLayout 3 = some (272, 32) ∧
    ((104 : Nat) ≠ 100 ∧ (272 : Nat) ≠ 268) ∧
    (Wad.parse c1buf).map (fun f => f.content.map Wad.Content.hash) =
      Except.ok [0x0807060504030201] ∧
    leNat ((c1buf.drop 104).take 8) = 0x0807060504030201 ∧
    leNat ((c1buf.drop 100).take 8) ≠ 0x0807060504030201 := by
  refine ⟨rfl, rfl, by decide, rfl, rfl, by decide⟩

/-- C1 (amended): content records are decoded at a fixed stride derived
solely from the major version — start 12 stride 24 for major 1, start 104
stride 32 for major 2, start 272 stride 32 for major 3; the header's
entry_offset/entry_size fields are not inputs of the computation. -/
theorem c1_amended_fixed_stride (input : Bytes) (major fc : Nat) (xs : List Wad.Content)
    (hmaj : major = 1 ∨ major = 2 ∨ major = 3)
    (h : Wad.content input major fc = Except.ok xs) :
    xs.length = fc ∧
    ∀ i, i < fc → ∃ c, xs.get? i = some c ∧
      Wad.contentEntry input major
          ((if major = 1 then 12 else if major = 2 then 104 else 272) +
            i * (if major = 1 then 24 else 32)) = Except.ok c := by
  have main : ∀ ds es, Wad.contentLoop input major ds es 0 fc = Except.ok xs →
      xs.length = fc ∧ ∀ i, i < fc → ∃ c, xs.get? i = some c ∧
        Wad.contentEntry input major (ds + i * es) = Except.ok c := by
    intro ds es hloop
    obtain ⟨hlen, helts⟩ := contentLoop_spec input major ds es fc 0 xs hloop
    exact ⟨hlen, fun i hi => by simpa using helts i hi⟩
  rcases hmaj with rfl | rfl | rfl
  · simpa using main 12 24 (by simpa [Wad.content, Wad.contentLayout] using h)
  · simpa using main 104 32 (by simpa [Wad.content, Wad.contentLayout] using h)
  · simpa using main 272 32 (by simpa [Wad.content, Wad.contentLayout] using h)

/-- Witness for C1 (amended) on the concrete major-2 buffer. -/
theorem c1_amended_witness :
    Wad.content c1buf 2 1 = Except.ok [c1rec] ∧
    ([c1rec].length = 1 ∧
      ∃ c, [c1rec].get? 0 = some c ∧ Wad.contentEntry c1buf 2 104 = Except.ok c) := by
  have h := c1_amended_fixed_stride c1buf 2 1 [c1rec] (Or.inr (Or.inl rfl)) rfl
  exact ⟨rfl, h.1, by simpa using h.2 0 (by decide)⟩

/-! ## Claim C3 -/

/-- Every primitive read whose end lies past the buffer aborts without
producing a value. -/
theorem readLe_eof (input : Bytes) (pos width : Nat) (h : input.length < pos + width) :
    readLe input pos width = Except.error PanicCause.eof := by
  simp [readLe, Nat.not_le.mpr h]

/-- C3: on a truncated buffer the decode does abort — but via the
`unwrap`-induced panic the embedding records as an error value, not via a
typed `Truncated` result; the two-byte buffer holds just the magic, so
the very first primitive read past it aborts the whole parse. -/
theorem c3_truncated_abort :
    Wad.parse [82, 87] = Except.error PanicCause.eof ∧
    readU64 [0] 0 = Except.error PanicCause.eof ∧
    readU32 [1, 2, 3] 0 = Except.error PanicCause.eof ∧
    readU16 [1] 2 = Except.error PanicCause.eof :=
  ⟨rfl, rfl, rfl, rfl⟩

/-! ## Claim C4 -/

/-- C4: the compression value sits at sub-offset 20, read as a u32 for
major 1 (the 36-byte buffer truncated to 33 bytes aborts even though a
one-byte read would fit) and as a u8 for major 2/3 (the byte at
sub-offset 21 is consumed as the duplicate flag instead); the value maps
through the enum with 3 decoding to ZSTD, and every value of 4 or more
makes the decode abort rather than default. -/
theorem c4_compression_dispatch :
    Wad.CompressionType.from_u8 0 = some Wad.CompressionType.NONE ∧
    Wad.CompressionType.from_u8 1 = some Wad.CompressionType.GZIP ∧
    Wad.CompressionType.from_u8 2 = some Wad.CompressionType.REFERENCE ∧
    Wad.CompressionType.from_u8 3 = some Wad.CompressionType.ZSTD ∧
    (∀ n, 4 ≤ n → Wad.CompressionType.from_u8 n = none) ∧
    (Wad.parse c4buf1).map (fun f => f.content.map Wad.Content.compression_type) =
      Except.ok [Wad.CompressionType.ZSTD] ∧
    Wad.parse (c4buf1.take 33) = Except.error PanicCause.eof ∧
    (Wad.parse c4buf3good).map
        (fun f => f.content.map (fun c => (c.compression_type, c.version))) =
      Except.ok [(Wad.CompressionType.ZSTD, Wad.ContentVersion.V2 true 9)] ∧
    Wad.parse c4buf3 = Except.error PanicCause.invalidCompression ∧
    (∀ (input : Bytes) (major eo v h0 d0 cs us : Nat), ¬ major = 1 →
      readU64 input eo = Except.ok h0 →
      readU32 input (eo + 8) = Except.ok d0 →
      readU32 input (eo + 12) = Except.ok cs →
      readU32 input (eo + 16) = Except.ok us →
      readU8 input (eo + 20) = Except.ok v → 4 ≤ v →
      Wad.contentEntry input major eo = Except.error PanicCause.invalidCompression) := by
  refine ⟨rfl, rfl, rfl, rfl, fun n hn => from_u8_none_of_ge hn, rfl, rfl, rfl, rfl, ?_⟩
  intro input major eo v h0 d0 cs us hmaj hh hd hcs hus hv h4
  simp [Wad.contentEntry, hh, hd, hcs, hus, hv, hmaj, from_u8_none_of_ge h4,
    Bind.bind, Except.bind]

/-- Witness for C4: the hypothesised conjuncts instantiated at the
out-of-range value 4 and at the concrete major-3 record of `c4buf3`. -/
theorem c4_witness :
    Wad.CompressionType.from_u8 4 = none ∧
    Wad.contentEntry c4buf3 3 272 = Except.error PanicCause.invalidCompression := by
  have h := c4_compression_dispatch
  refine ⟨h.2.2.2.2.1 4 (by decide), ?_⟩
  exact h.2.2.2.2.2.2.2.2.2 c4buf3 3 272 4 0 0 0 0 (by decide) rfl rfl rfl rfl rfl (by decide)

/-! ## Claim C5 -/

/-- C5: a WAD whose magic checks out but whose major version byte is not
1, 2 or 3 makes the decode abort at the invalid-major panic before any
content record is decoded; there is no fallback layout arm. -/
theorem c5_unknown_major_rejected (input : Bytes) (m mi : Nat) (rest : Bytes)
    (hshape : input = 82 :: 87 :: m :: mi :: rest)
    (h1 : m ≠ 1) (h2 : m ≠ 2) (h3 : m ≠ 3) :
    Wad.parse input = Except.error PanicCause.invalidMajor := by
  subst hshape
  simp [Wad.parse, Wad.header, readTag, readU8, readLe, leNat, h1, h2, h3,
    Bind.bind, Except.bind]

/-- Witness for C5 at the concrete major byte 5. -/
theorem c5_witness : Wad.parse [82, 87, 5, 0] = Except.error PanicCause.invalidMajor :=
  c5_unknown_major_rejected [82, 87, 5, 0] 5 0 [] rfl (by decide) (by decide) (by decide)

/-! ## Claim C10 -/

/-- C10: the major-2 header decode takes the ECDSA length from byte 0 —
the magic byte 82 — rather than from the length byte at offset 4, so the
returned blob is always the 82 bytes at positions 5..87, unchanged when
the byte at offset 4 is 3 or 200; the fixed fields are still read from
position 88. -/
theorem c10_ecdsa_length_from_magic :
    (Wad.header c10buf).map (fun h => h.version) =
      Except.ok (Wad.HeaderVersion.V2 (List.replicate 82 7) 0 0 0) ∧
    (Wad.header c10buf2).map (fun h => h.version) =
      Except.ok (Wad.HeaderVersion.V2 (List.replicate 82 7) 0 0 0) ∧
    c10buf.get? 4 = some 3 ∧
    c10buf2.get? 4 = some 200 ∧
    c10buf.get? 0 = some 82 ∧
    sliceBytes c10buf 5 (5 + 82) = Except.ok (List.replicate 82 7) ∧
    (List.replicate 82 7 : Bytes).length ≠ 3 ∧
    readU64 c10buf 88 = Except.ok 0 := by
  exact ⟨rfl, rfl, rfl, rfl, rfl, rfl, by decide, rfl⟩

/-! ## Claim C6 -/

/-- Characterization of the vtable loop: entry `j` of the remaining name
list pairs the name with the u16 read at `vpos + 2 * (i + j)`. -/
theorem vtableLoop_spec (input : Bytes) (vpos : Nat) :
    ∀ (es : List String) (i : Nat) (m : Rman.VTable),
      Rman.vtableLoop input vpos es i = Except.ok m →
      m.length = es.length ∧ ∀ j, j < es.length → ∃ name val,
        es.get? j = some name ∧
        readU16 input (vpos + 2 * (i + j)) = Except.ok val ∧
        m.get? j = some (name, val) := by
  intro es
  induction es with
  | nil =>
    intro i m h
    simp only [Rman.vtableLoop] at h
    cases h
    simp
  | cons e es ih =>
    intro i m h
    simp only [Rman.vtableLoop, exceptBind_ok, Except.ok.injEq] at h
    obtain ⟨val, hval, rest, hrest, hm⟩ := h
    subst hm
    obtain ⟨hlen, htail⟩ := ih (i + 1) rest hrest
    refine ⟨by simp [hlen], ?_⟩
    intro j hj
    cases j with
    | zero => exact ⟨e, val, by simp, by simpa using hval, by simp⟩
    | succ k =>
      obtain ⟨name, v, hn, hr, hmk⟩ := htail k (by simpa using hj)
      refine ⟨name, v, by simpa using hn, ?_, by simpa using hmk⟩
      have he : i + 1 + k = i + (k + 1) := by omega
      rwa [he] at hr

/-- C6: the vtable resolver reads a signed 32-bit soffset at the table
position, locates the vtable at `table_position - soffset` by signed
subtraction (either sign of the soffset is accepted as long as the
difference is a position inside the buffer), and reads field `i`'s u16
offset at `vtable_position + 2 * i` for each schema field index. -/
theorem c6_vtable_resolution (input : Bytes) (table_position : Nat) (entries : List String)
    (soffset : Int) (m : Rman.VTable)
    (hs : readI32 input table_position = Except.ok soffset)
    (h : Rman.parse_vtable input table_position entries = Except.ok m) :
    0 ≤ (table_position : Int) - soffset ∧
    m.length = entries.length ∧
    ∀ i, i < entries.length → ∃ name val,
      entries.get? i = some name ∧
      readU16 input (((table_position : Int) - soffset).toNat + 2 * i) = Except.ok val ∧
      m.get? i = some (name, val) := by
  simp only [Rman.parse_vtable, exceptBind_ok] at h
  obtain ⟨s, hs2, hif⟩ := h
  rw [hs] at hs2
  cases hs2
  by_cases hc : 0 ≤ (table_position : Int) - soffset ∧
      ((table_position : Int) - soffset).toNat ≤ input.length
  · rw [if_pos hc] at hif
    obtain ⟨hlen, helts⟩ :=
      vtableLoop_spec input ((table_position : Int) - soffset).toNat entries 0 m hif
    exact ⟨hc.1, hlen, fun i hi => by simpa using helts i hi⟩
  · rw [if_neg hc] at hif
    cases hif

/-- Witness for C6 on a table at position 0 whose soffset is the negative
value -8 (the vtable lies after the table): the two fields resolve to the
u16s 5 and 6 read at positions 8 and 10. -/
theorem c6_witness :
    0 ≤ ((0 : Nat) : Int) - (-8 : Int) ∧
    ([("a", 5), ("b", 6)] : Rman.VTable).length = (["a", "b"] : List String).length ∧
    ∀ i, i < (["a", "b"] : List String).length → ∃ name val,
      (["a", "b"] : List String).get? i = some name ∧
      readU16 [248, 255, 255, 255, 0, 0, 0, 0, 5, 0, 6, 0]
          ((((0 : Nat) : Int) - (-8 : Int)).toNat + 2 * i) = Except.ok val ∧
      ([("a", 5), ("b", 6)] : Rman.VTable).get? i = some (name, val) :=
  c6_vtable_resolution [248, 255, 255, 255, 0, 0, 0, 0, 5, 0, 6, 0] 0 ["a", "b"] (-8)
    [("a", 5), ("b", 6)] rfl rfl

/-! ## Claim C7 -/

/-- Characterization of the vector loop: on success it yields one element
per remaining iteration, element `j` resolved through the relative offset
read at `table_offset + (4 + 4 * (i + j))`. -/
theorem vectorLoop_spec {α : Type} (input : Bytes) (start : Nat) (parts : List String)
    (f : Nat → Rman.VTable → Except PanicCause α) :
    ∀ (r i : Nat) (xs : List α),
      Rman.vectorLoop input start parts f i r = Except.ok xs →
      xs.length = r ∧ ∀ j, j < r → ∃ off vt x,
        readU32 input (start + (4 + 4 * (i + j))) = Except.ok off ∧
        Rman.parse_vtable input (4 + 4 * (i + j) + off + start) parts = Except.ok vt ∧
        f (4 + 4 * (i + j) + off + start) vt = Except.ok x ∧
        xs.get? j = some x := by
  intro r
  induction r with
  | zero =>
    intro i xs h
    simp only [Rman.vectorLoop] at h
    cases h
    simp
  | succ n ih =>
    intro i xs h
    simp only [Rman.vectorLoop, exceptBind_ok, Except.ok.injEq] at h
    obtain ⟨off, hoff, vt, hvt, x, hx, rest, hrest, hxs⟩ := h
    subst hxs
    obtain ⟨hlen, htail⟩ := ih (i + 1) rest hrest
    refine ⟨by simp [hlen], ?_⟩
    intro j hj
    cases j with
    | zero =>
      exact ⟨off, vt, x, by simpa using hoff, by simpa using hvt, by simpa using hx, by simp⟩
    | succ k =>
      obtain ⟨o, v, y, ho, hv, hy, hk⟩ := htail k (by simpa using hj)
      have he : i + 1 + k = i + (k + 1) := by omega
      rw [he] at ho hv hy
      exact ⟨o, v, y, ho, hv, hy, by simpa using hk⟩

/-- Characterization of the long-vector loop. -/
theorem longLoop_spec (input : Bytes) (start : Nat) :
    ∀ (r i : Nat) (ys : List Nat),
      Rman.longLoop input start i r = Except.ok ys →
      ys.length = r ∧ ∀ j, j < r → ∃ v,
        readU64 input (start + (4 + 8 * (i + j))) = Except.ok v ∧ ys.get? j = some v := by
  intro r
  induction r with
  | zero =>
    intro i ys h
    simp only [Rman.longLoop] at h
    cases h
    simp
  | succ n ih =>
    intro i ys h
    simp only [Rman.longLoop, exceptBind_ok, Except.ok.injEq] at h
    obtain ⟨v, hv, rest, hrest, hys⟩ := h
    subst hys
    obtain ⟨hlen, htail⟩ := ih (i + 1) rest hrest
    refine ⟨by simp [hlen], ?_⟩
    intro j hj
    cases j with
    | zero => exact ⟨v, by simpa using hv, by simp⟩
    | succ k =>
      obtain ⟨w, hw, hk⟩ := htail k (by simpa using hj)
      have he : i + 1 + k = i + (k + 1) := by omega
      rw [he] at hw
      exact ⟨w, hw, by simpa using hk⟩

/-- C7: the vector decoder yields exactly `count` elements in index order,
element `i` resolved at `vector_start + 4 + 4 * i + offset` with the
offset read at `vector_start + 4 + 4 * i`; the long-vector decoder yields
exactly `count` inline u64s, element `i` read at `start + 4 + 8 * i`;
count 0 yields the empty sequence for both. -/
theorem c7_vector_lengths :
    (∀ (α : Type) (input : Bytes) (start : Nat) (parts : List String)
        (f : Nat → Rman.VTable → Except PanicCause α) (count : Nat) (xs : List α),
      readU32 input start = Except.ok count →
      Rman.parse_vector input start parts f = Except.ok xs →
      xs.length = count ∧ ∀ i, i < count → ∃ off vt x,
        readU32 input (start + (4 + 4 * i)) = Except.ok off ∧
        Rman.parse_vtable input (start + (4 + 4 * i) + off) parts = Except.ok vt ∧
        f (start + (4 + 4 * i) + off) vt = Except.ok x ∧
        xs.get? i = some x) ∧
    (∀ (input : Bytes) (start count : Nat) (ys : List Nat),
      readU32 input start = Except.ok count →
      Rman.parse_long_vector input start = Except.ok ys →
      ys.length = count ∧ ∀ i, i < count → ∃ v,
        readU64 input (start + (4 + 8 * i)) = Except.ok v ∧ ys.get? i = some v) ∧
    (∀ (α : Type) (input : Bytes) (start : Nat) (parts : List String)
        (f : Nat → Rman.VTable → Except PanicCause α),
      readU32 input start = Except.ok 0 →
      Rman.parse_vector input start parts f = Except.ok []) ∧
    (∀ (input : Bytes) (start : Nat),
      readU32 input start = Except.ok 0 →
      Rman.parse_long_vector input start = Except.ok []) := by
  refine ⟨?_, ?_, ?_, ?_⟩
  · intro α input start parts f count xs hc h
    simp only [Rman.parse_vector, exceptBind_ok] at h
    obtain ⟨c, hc2, hloop⟩ := h
    rw [hc] at hc2
    cases hc2
    obtain ⟨hlen, helts⟩ := vectorLoop_spec input start parts f count 0 xs hloop
    refine ⟨hlen, fun i hi => ?_⟩
    obtain ⟨off, vt, x, ho, hv, hx, hxi⟩ := helts i hi
    have he : 4 + 4 * (0 + i) + off + start = start + (4 + 4 * i) + off := by omega
    rw [he] at hv hx
    have he2 : start + (4 + 4 * (0 + i)) = start + (4 + 4 * i) := by omega
    rw [he2] at ho
    exact ⟨off, vt, x, ho, hv, hx, hxi⟩
  · intro input start count ys hc h
    simp only [Rman.parse_long_vector, exceptBind_ok] at h
    obtain ⟨c, hc2, hloop⟩ := h
    rw [hc] at hc2
    cases hc2
    obtain ⟨hlen, helts⟩ := longLoop_spec input start count 0 ys hloop
    exact ⟨hlen, fun i hi => by simpa using helts i hi⟩
  · intro α input start parts f hc
    simp [Rman.parse_vector, hc, Bind.bind, Except.bind, Rman.vectorLoop]
  · intro input start hc
    simp [Rman.parse_long_vector, hc, Bind.bind, Except.bind, Rman.longLoop]

/-- Witness for C7: the file-section vector of `c2buf` has declared count
1 and decodes to the one-element list `[fEnt]`; the long vector of
`c7long` has declared count 2 and decodes to `[100, 200]` in order. -/
theorem c7_witness :
    readU32 c2buf 0 = Except.ok 1 ∧
    Rman.parse_vector c2buf 0 Rman.files_parts (Rman.parse_single_file c2buf) =
      Except.ok [fEnt] ∧
    ([fEnt] : List Rman.FileEntry).length = 1 ∧
    readU32 c7long 0 = Except.ok 2 ∧
    Rman.parse_long_vector c7long 0 = Except.ok [100, 200] ∧
    ([100, 200] : List Nat).length = 2 := by
  have h := c7_vector_lengths
  refine ⟨rfl, rfl, ?_, rfl, rfl, ?_⟩
  · exact (h.1 Rman.FileEntry c2buf 0 Rman.files_parts (Rman.parse_single_file c2buf) 1
      [fEnt] rfl rfl).1
  · exact (h.2.1 c7long 0 2 [100, 200] rfl rfl).1

/-! ## Claim C2 -/

/-- C2 counterexample: in the file-section decoder a `directory_id` vtable
offset of 0 does NOT produce the default 0 — the u64 is read at
`table_position + 0` (here the table at byte 40, so the value 32 comes
from the soffset bytes), while the vtable of the decoded element really
resolves `directory_id` to offset 0. -/
theorem c2_counterexample :
    Rman.files c2buf 0 = Except.ok [fEnt] ∧
    Rman.parse_vtable c2buf 40 Rman.files_parts = Except.ok c2vt ∧
    Rman.vtGet c2vt ("directory_id") = Except.ok 0 ∧
    readU64 c2buf 40 = Except.ok 32 ∧
    fEnt.directory_id = 32 ∧
    (32 : Nat) ≠ 0 :=
  ⟨rfl, rfl, rfl, rfl, rfl, by decide⟩

/-- C2 (amended): the directory-section decoder substitutes the default 0
for `directory_id` and `parent_id` when their vtable offsets are 0; the
file-section decoder instead reads `directory_id` unconditionally at
`table_position + offset`, even when the offset is 0. -/
theorem c2_optional_id_defaults (input : Bytes) :
    (∀ (start : Nat) (eo : Rman.VTable) (d : Rman.Directory),
      Rman.parse_single_directory input start eo = Except.ok d →
      (Rman.vtGet eo ("directory_id") = Except.ok 0 → d.id = 0) ∧
      (Rman.vtGet eo ("parent_id") = Except.ok 0 → d.parent_id = 0)) ∧
    (∀ (start : Nat) (eo : Rman.VTable) (fe : Rman.FileEntry) (w : Nat),
      Rman.parse_single_file input start eo = Except.ok fe →
      Rman.vtGet eo ("directory_id") = Except.ok w →
      readU64 input (start + w) = Except.ok fe.directory_id) := by
  constructor
  · intro start eo d h
    simp only [Rman.parse_single_directory] at h
    rcases exceptBind_ok.mp h with ⟨w1, hw1, h⟩
    rcases exceptBind_ok.mp h with ⟨nm, hnm, h⟩
    rcases exceptBind_ok.mp h with ⟨w2, hw2, h⟩
    constructor
    · intro h0
      rw [hw2] at h0
      injection h0 with h0
      subst h0
      rw [if_neg (by omega)] at h
      rcases exceptBind_ok.mp h with ⟨z, hz, h⟩
      injection hz with hz
      subst hz
      rcases exceptBind_ok.mp h with ⟨w3, hw3, h⟩
      by_cases hc : w3 > 0
      · rw [if_pos hc] at h
        rcases exceptBind_ok.mp h with ⟨p, hp, h⟩
        injection h with h
        rw [← h]
      · rw [if_neg hc] at h
        rcases exceptBind_ok.mp h with ⟨p, hp, h⟩
        injection h with h
        rw [← h]
    · intro h0
      by_cases hc : w2 > 0
      · rw [if_pos hc] at h
        rcases exceptBind_ok.mp h with ⟨y, hy, h⟩
        rcases exceptBind_ok.mp h with ⟨w3, hw3, h⟩
        rw [hw3] at h0
        injection h0 with h0
        subst h0
        rw [if_neg (by omega)] at h
        rcases exceptBind_ok.mp h with ⟨p, hp, h⟩
        injection hp with hp
        injection h with h
        rw [← h]
        simpa using hp.symm
      · rw [if_neg hc] at h
        rcases exceptBind_ok.mp h with ⟨y, hy, h⟩
        rcases exceptBind_ok.mp h with ⟨w3, hw3, h⟩
        rw [hw3] at h0
        injection h0 with h0
        subst h0
        rw [if_neg (by omega)] at h
        rcases exceptBind_ok.mp h with ⟨p, hp, h⟩
        injection hp with hp
        injection h with h
        rw [← h]
        simpa using hp.symm
  · intro start eo fe w h hw
    simp only [Rman.parse_single_file] at h
    rcases exceptBind_ok.mp h with ⟨w1, hw1, h⟩
    rcases exceptBind_ok.mp h with ⟨nm, hnm, h⟩
    rcases exceptBind_ok.mp h with ⟨w2, hw2, h⟩
    rcases exceptBind_ok.mp h with ⟨sym, hsym, h⟩
    rcases exceptBind_ok.mp h with ⟨w3, hw3, h⟩
    rcases exceptBind_ok.mp h with ⟨fid, hfid, h⟩
    rcases exceptBind_ok.mp h with ⟨w4, hw4, h⟩
    rw [hw] at hw4
    injection hw4 with hw4
    subst hw4
    rcases exceptBind_ok.mp h with ⟨did, hdid, h⟩
    rcases exceptBind_ok.mp h with ⟨w5, hw5, h⟩
    rcases exceptBind_ok.mp h with ⟨fsz, hfsz, h⟩
    rcases exceptBind_ok.mp h with ⟨w6, hw6, h⟩
    rcases exceptBind_ok.mp h with ⟨lmask, hlmask, h⟩
    rcases exceptBind_ok.mp h with ⟨w7, hw7, h⟩
    rcases exceptBind_ok.mp h with ⟨chks, hchks, h⟩
    injection h with h
    rw [← h]
    simpa using hdid

/-- Witness for C2 (amended): the directory of `dirbuf` decodes with both
ids defaulted to 0, and the file of `c2buf` has its `directory_id` read
at table position 40 despite the offset-0 vtable slot. -/
theorem c2_defaults_witness :
    Rman.parse_single_directory dirbuf 20 dirVt =
      Except.ok { id := 0, parent_id := 0, name := "A" } ∧
    Rman.vtGet dirVt ("directory_id") = Except.ok 0 ∧
    ({ id := 0, parent_id := 0, name := "A" } : Rman.Directory).id = 0 ∧
    ({ id := 0, parent_id := 0, name := "A" } : Rman.Directory).parent_id = 0 ∧
    Rman.parse_single_file c2buf 40 c2vt = Except.ok fEnt ∧
    readU64 c2buf (40 + 0) = Except.ok fEnt.directory_id := by
  have hdir := (c2_optional_id_defaults dirbuf).1 20 dirVt
    { id := 0, parent_id := 0, name := "A" } rfl
  have hfile := (c2_optional_id_defaults c2buf).2 40 c2vt fEnt 0 rfl rfl
  exact ⟨rfl, rfl, hdir.1 rfl, hdir.2 rfl, rfl, hfile⟩

/-! ## Claim C8 -/

/-- C8: the root `header_offset` is the u32 at position 0 of the
decompressed buffer, and the four section start positions are
`header_offset + raw + constant` with the constants 4, 8, 12, 16 for the
bundle, language, file and folder sections, the raw field offsets being
the u32s read at `header_offset + 4/8/12/16` (the u32 at `header_offset`
itself is read and discarded). -/
theorem c8_offset_map_constants (input : Bytes) (h u b l f d : Nat)
    (h0 : readU32 input 0 = Except.ok h)
    (hu : readU32 input h = Except.ok u)
    (hb : readU32 input (h + 4) = Except.ok b)
    (hl : readU32 input (h + 8) = Except.ok l)
    (hf : readU32 input (h + 12) = Except.ok f)
    (hd : readU32 input (h + 16) = Except.ok d) :
    Rman.offset_map input =
      Except.ok
        { bundle_offset := h + b + 4, language_offset := h + l + 8,
          file_offset := h + f + 12, folder_offset := h + d + 16 } := by
  simp [Rman.offset_map, h0, hu, hb, hl, hf, hd, Bind.bind, Except.bind]

/-- Witness for C8 on `c8buf`: header offset 4, raw offsets 10/20/30/40,
section starts 18/32/46/60. -/
theorem c8_offset_map_witness :
    Rman.offset_map c8buf =
      Except.ok
        { bundle_offset := 18, language_offset := 32, file_offset := 46,
          folder_offset := 60 } :=
  c8_offset_map_constants c8buf 4 99 10 20 30 40 rfl rfl rfl rfl rfl rfl

/-- Ill-formed UTF-8 always leaves at least one replacement character in
the lossy decoding. -/
theorem utf8Lossy_rep_of_invalid (bs : List Nat) (h : utf8Valid bs = false) :
    repChar ∈ utf8Lossy bs := by
  induction bs using utf8Lossy.induct with
  | case1 => simp [utf8Valid] at h
  | case2 b bs h1 ih =>
    rw [utf8Lossy.eq_def]
    rw [utf8Valid.eq_def] at h
    simp only [if_pos h1] at h ⊢
    exact List.mem_cons_of_mem _ (ih h)
  | case3 b bs h1 h2 ih =>
    rw [utf8Lossy.eq_def]
    simp only [if_neg h1, if_pos h2]
    exact List.mem_cons_self _ _
  | case4 b h1 h2 h3 =>
    rw [utf8Lossy.eq_def]
    simp only [if_neg h1, if_neg h2, if_pos h3]
    simp
  | case5 b h1 h2 h3 c bs hc ih =>
    rw [utf8Lossy.eq_def]
    rw [utf8Valid.eq_def] at h
    simp only [if_neg h1, if_neg h2, if_pos h3, if_pos hc] at h ⊢
    exact List.mem_cons_of_mem _ (ih h)
  | case6 b h1 h2 h3 c bs hc ih =>
    rw [utf8Lossy.eq_def]
    simp only [if_neg h1, if_neg h2, if_pos h3, if_neg hc]
    exact List.mem_cons_self _ _
  | case7 b h1 h2 h3 h4 =>
    rw [utf8Lossy.eq_def]
    simp only [if_neg h1, if_neg h2, if_neg h3, if_pos h4]
    simp
  | case8 b h1 h2 h3 h4 c hs =>
    rw [utf8Lossy.eq_def]
    simp only [if_neg h1, if_neg h2, if_neg h3, if_pos h4, if_pos hs]
    simp
  | case9 b h1 h2 h3 h4 c hs d bs hc ih =>
    rw [utf8Lossy.eq_def]
    rw [utf8Valid.eq_def] at h
    simp only [if_neg h1, if_neg h2, if_neg h3, if_pos h4, if_pos hs, if_pos hc] at h ⊢
    exact List.mem_cons_of_mem _ (ih h)
  | case10 b h1 h2 h3 h4 c hs d bs hc ih =>
    rw [utf8Lossy.eq_def]
    simp only [if_neg h1, if_neg h2, if_neg h3, if_pos h4, if_pos hs, if_neg hc]
    exact List.mem_cons_self _ _
  | case11 b h1 h2 h3 h4 c bs hs ih =>
    rw [utf8Lossy.eq_def]
    simp only [if_neg h1, if_neg h2, if_neg h3, if_pos h4, if_neg hs]
    exact List.mem_cons_self _ _
  | case12 b h1 h2 h3 h4 h5 =>
    rw [utf8Lossy.eq_def]
    simp only [if_neg h1, if_neg h2, if_neg h3, if_neg h4, if_pos h5]
    simp
  | case13 b h1 h2 h3 h4 h5 c hs =>
    rw [utf8Lossy.eq_def]
    simp only [if_neg h1, if_neg h2, if_neg h3, if_neg h4, if_pos h5, if_pos hs]
    simp
  | case14 b h1 h2 h3 h4 h5 c hs d hc =>
    rw [utf8Lossy.eq_def]
    simp only [if_neg h1, if_neg h2, if_neg h3, if_neg h4, if_pos h5, if_pos hs, if_pos hc]
    simp
  | case15 b h1 h2 h3 h4 h5 c hs d hc e bs h3c ih =>
    rw [utf8Lossy.eq_def]
    rw [utf8Valid.eq_def] at h
    simp only [if_neg h1, if_neg h2, if_neg h3, if_neg h4, if_pos h5, if_pos hs, if_pos hc,
      if_pos h3c] at h ⊢
    exact List.mem_cons_of_mem _ (ih h)
  | case16 b h1 h2 h3 h4 h5 c hs d hc e bs h3c ih =>
    rw [utf8Lossy.eq_def]
    simp only [if_neg h1, if_neg h2, if_neg h3, if_neg h4, if_pos h5, if_pos hs, if_pos hc,
      if_neg h3c]
    exact List.mem_cons_self _ _
  | case17 b h1 h2 h3 h4 h5 c hs d bs hc ih =>
    rw [utf8Lossy.eq_def]
    simp only [if_neg h1, if_neg h2, if_neg h3, if_neg h4, if_pos h5, if_pos hs, if_neg hc]
    exact List.mem_cons_self _ _
  | case18 b h1 h2 h3 h4 h5 c bs hs ih =>
    rw [utf8Lossy.eq_def]
    simp only [if_neg h1, if_neg h2, if_neg h3, if_neg h4, if_pos h5, if_neg hs]
    exact List.mem_cons_self _ _
  | case19 b bs h1 h2 h3 h4 h5 ih =>
    rw [utf8Lossy.eq_def]
    simp only [if_neg h1, if_neg h2, if_neg h3, if_neg h4, if_neg h5]
    exact List.mem_cons_self _ _

/-! ## Claim C9 -/

/-- C9: string decoding is total and lossy — a byte blob that is not
well-formed UTF-8 decodes to a string containing the U+FFFD replacement
character, and the indirect string read succeeds for every byte content
of the blob whenever the structural reads are in bounds, so invalid UTF-8
never makes the decode fail. -/
theorem c9_lossy_string_decoding :
    (∀ bs : Bytes, utf8Valid bs = false → repChar ∈ (from_utf8_lossy bs).data) ∧
    (∀ (input : Bytes) (base p len : Nat),
      readU32 input base = Except.ok p →
      readU32 input (base + p) = Except.ok len →
      base + p + 4 + len ≤ input.length →
      Rman.indirect_string input base =
        Except.ok (from_utf8_lossy ((input.drop (base + p + 4)).take len))) := by
  constructor
  · intro bs hbs
    simpa [from_utf8_lossy] using utf8Lossy_rep_of_invalid bs hbs
  · intro input base p len hp hlen hbound
    simp [Rman.indirect_string, sliceBytes, hp, hlen, Bind.bind, Except.bind, hbound,
      Nat.le_add_right]

/-- Witness for C9: the byte 255 is not valid UTF-8, its lossy decoding
contains U+FFFD, and the indirect string of `c9buf` still decodes
successfully to that string. -/
theorem c9_witness :
    utf8Valid [255] = false ∧
    repChar ∈ (from_utf8_lossy [255]).data ∧
    Rman.indirect_string c9buf 0 = Except.ok (from_utf8_lossy [255]) := by
  have h := c9_lossy_string_decoding
  refine ⟨by decide, h.1 [255] (by decide), ?_⟩
  exact h.2 c9buf 0 4 1 rfl rfl (by decide)
